import Mathlib

/-!
# Fleet Navigator frontend: version gates and settings store

A shallow embedding of `src/frontend/src/stores/settingsStore.js` and
`src/frontend/src/main.js`.

* The browser's `localStorage` is an explicit association list that is passed through every
  operation; it has no quota, so `setItem` never throws.
* The reactive `settings.value` is an explicit record; the watcher callback is a function of
  its own that is applied after a change.
* Asynchronous calls are modelled by their outcome: what `fetch` resolved to, or that it
  rejected.  A `try` block is a case distinction in which every throwing step returns the
  state reached so far, as the `catch` blocks of the source only log.
* `JSON.parse` is a parameter of the functions that call it, so the general results hold for
  every parser; `JSON.parse` and `JSON.stringify` below are used for the concrete states.
* Strings are sequences of Unicode characters, numbers are exact decimals, and the own
  properties of an object are kept in insertion order.
-/

namespace FleetNavigator

/-! ## Local storage (the Web Storage interface) -/

/-- The entries of local storage, in the order that `localStorage.key(i)` enumerates them. -/
abbrev Storage := List (String × String)

namespace localStorage

/-- The call `localStorage.getItem(k)`: the stored string, or `none` for `null`. -/
def getItem : Storage → String → Option String
  | [], _ => none
  | (k', v) :: rest, k => if k' = k then some v else getItem rest k

/-- The call `localStorage.setItem(k, v)`: an existing key keeps its position, a new key is added. -/
def setItem : Storage → String → String → Storage
  | [], k, v => [(k, v)]
  | (k', v') :: rest, k, v => if k' = k then (k, v) :: rest else (k', v') :: setItem rest k v

/-- The call `localStorage.removeItem(k)`. -/
def removeItem (ls : Storage) (k : String) : Storage :=
  ls.filter (fun e => decide (e.1 ≠ k))

/-- The call `localStorage.clear()`. -/
def clear (_ls : Storage) : Storage := []

/-- The property `localStorage.length`. -/
def length (ls : Storage) : Nat := List.length ls

/-- The call `localStorage.key(i)`: the name of the i-th key, or `none` for `null`. -/
def key (ls : Storage) (i : Nat) : Option String := (ls.get? i).map Prod.fst

end localStorage

open localStorage

/-- The method `String.prototype.startsWith`. -/
def startsWith (s p : String) : Bool := p.toList.isPrefixOf s.toList

/-! ## settingsStore.js: the version gate that runs on module load -/

def STORAGE_KEY : String := "fleet-navigator-settings"

def VERSION_KEY : String := "fleet-navigator-version"

/-- The constant `currentVersion = __APP_VERSION__ || '0.0.0'`; the build injects
`__APP_VERSION__` as a string literal, which is falsy exactly when empty. -/
def currentVersion (appVersion : String) : String :=
  if appVersion = "" then "0.0.0" else appVersion

/-- The test `key && (key.startsWith('fleet-navigator') || key.startsWith('chaining'))`
applied to the result of `localStorage.key(i)`. -/
def isAppKey : Option String → Bool
  | none => false
  | some k => k ≠ "" && (startsWith k "fleet-navigator" || startsWith k "chaining")

/-- The loop `for (let i = 0; i < localStorage.length; i++)` that fills `keysToRemove`. -/
def keysToRemove (ls : Storage) : List String :=
  (List.range (length ls)).foldl
    (fun acc i =>
      match key ls i with
      | some k => if isAppKey (some k) then acc ++ [k] else acc
      | none => acc)
    []

/-- The function `checkVersionAndClearCacheIfNeeded` of settingsStore.js: the storage it
leaves behind and its return value. -/
def checkVersionAndClearCacheIfNeeded (appVersion : String) (ls : Storage) : Storage × Bool :=
  let storedVersion := getItem ls VERSION_KEY
  if storedVersion ≠ some (currentVersion appVersion) then
    let ls1 := (keysToRemove ls).foldl removeItem ls
    let ls2 := setItem ls1 VERSION_KEY (currentVersion appVersion)
    (ls2, true)
  else
    (ls, false)

/-! ## JavaScript values

Numbers are exact decimals `mantissa * 10 ^ exp10`; the program never computes with them,
it only stores, tests and serialises them. -/

/-- A JavaScript value as the store meets it: `undefined`, or what `JSON.parse` can return. -/
inductive JSValue where
  | undefined
  | null
  | bool (b : Bool)
  | num (mantissa : Int) (exp10 : Int)
  | str (s : String)
  | arr (xs : List JSValue)
  | obj (props : List (String × JSValue))

/-- The own properties of a plain object, in insertion order. -/
abbrev Obj := List (String × JSValue)

/-- What a `try` block can catch here. -/
inductive JSError where
  | typeError
  | parseError
  | rejected
  | securityError

namespace Obj

/-- The read `o[k]` of an own property: `none` when `o` has no such property. -/
def get : Obj → String → Option JSValue
  | [], _ => none
  | (k', v) :: rest, k => if k' = k then some v else get rest k

/-- The write `o[k] = v`: an existing property keeps its position, a new one is added last. -/
def set : Obj → String → JSValue → Obj
  | [], k, v => [(k, v)]
  | (k', v') :: rest, k, v => if k' = k then (k, v) :: rest else (k', v') :: set rest k v

/-- The own property names of `o`. -/
def keys (o : Obj) : List String := o.map Prod.fst

/-- Whether `o` has own property `k`. -/
def hasKey (o : Obj) (k : String) : Prop := k ∈ keys o

instance (o : Obj) (k : String) : Decidable (hasKey o k) :=
  inferInstanceAs (Decidable (k ∈ keys o))

end Obj

/-- JavaScript truthiness (`if (v)`, `v && ...`, `v || ...`). -/
def truthy : JSValue → Bool
  | .undefined => false
  | .null => false
  | .bool b => b
  | .num m _ => decide (m ≠ 0)
  | .str s => decide (s ≠ "")
  | .arr _ => true
  | .obj _ => true

/-- The test `v !== undefined`. -/
def isDefined : JSValue → Bool
  | .undefined => false
  | _ => true

/-- The test `s !== v` for a string `s`: only the same string is strictly equal to it. -/
def strictNeStr (s : String) : JSValue → Bool
  | .str t => decide (s ≠ t)
  | _ => true

/-- The read `v.k` for the property names this program reads (`enabled`, `visionModel`,
`version`, `visionChainingEnabled`), which no built-in prototype defines: a `TypeError` on
`null` and `undefined`, the own property of an object, `undefined` otherwise. -/
def getProp (v : JSValue) (k : String) : Except JSError JSValue :=
  match v with
  | .undefined => .error .typeError
  | .null => .error .typeError
  | .obj props => .ok ((Obj.get props k).getD .undefined)
  | _ => .ok .undefined

/-- The write `v.k = x` in strict mode (ES modules) for a non-index name `k`: a `TypeError`
on `null`, `undefined` and primitives; on an array the extra property is not part of its
elements. -/
def setProp (v : JSValue) (k : String) (x : JSValue) : Except JSError JSValue :=
  match v with
  | .obj props => .ok (.obj (Obj.set props k x))
  | .arr xs => .ok (.arr xs)
  | _ => .error .typeError

/-- The tail `...src` of an object literal `{ ...target, ...src }`: the own enumerable
properties of `src` are assigned in order (index keys for strings and arrays, none for
`null`, `undefined`, booleans and numbers). -/
def spreadInto (target : Obj) : JSValue → Obj
  | .obj props => props.foldl (fun acc e => Obj.set acc e.1 e.2) target
  | .arr xs => xs.enum.foldl (fun acc e => Obj.set acc (toString e.1) e.2) target
  | .str s =>
    s.toList.enum.foldl (fun acc e => Obj.set acc (toString e.1) (.str (String.singleton e.2)))
      target
  | _ => target

/-! ## JSON.stringify and JSON.parse -/

namespace JSON

def hexDigit (n : Nat) : Char :=
  if n < 10 then Char.ofNat (n + 48) else Char.ofNat (n - 10 + 97)

/-- The escape of one character inside a JSON string. -/
def escapeChar (c : Char) : List Char :=
  if c = '"' then ['\\', '"']
  else if c = '\\' then ['\\', '\\']
  else if c = '\n' then ['\\', 'n']
  else if c = '\r' then ['\\', 'r']
  else if c = '\t' then ['\\', 't']
  else if c.toNat = 8 then ['\\', 'b']
  else if c.toNat = 12 then ['\\', 'f']
  else if c.toNat < 32 then ['\\', 'u', '0', '0', hexDigit (c.toNat / 16), hexDigit (c.toNat % 16)]
  else [c]

def quote (s : String) : String :=
  String.mk ('"' :: (s.toList.flatMap escapeChar ++ ['"']))

/-- The decimal text of `mantissa * 10 ^ exp10`. -/
def numToString (mantissa exp10 : Int) : String :=
  let sign := if mantissa < 0 then "-" else ""
  let ds := (toString mantissa.natAbs).toList
  if mantissa = 0 then "0"
  else if 0 ≤ exp10 then sign ++ String.mk (ds ++ List.replicate exp10.toNat '0')
  else
    let k := (-exp10).toNat
    if k < ds.length then
      sign ++ String.mk (ds.take (ds.length - k) ++ '.' :: ds.drop (ds.length - k))
    else
      sign ++ String.mk ('0' :: '.' :: (List.replicate (k - ds.length) '0' ++ ds))

def joinComma : List String → String
  | [] => ""
  | [s] => s
  | s :: rest => s ++ "," ++ joinComma rest

mutual
/-- The serialisation of one value; `none` is the `undefined` that `JSON.stringify` returns
for `undefined`. -/
def serialize : JSValue → Option String
  | .undefined => none
  | .null => some "null"
  | .bool b => some (if b then "true" else "false")
  | .num m e => some (numToString m e)
  | .str s => some (quote s)
  | .arr xs => some ("[" ++ joinComma (serializeElements xs) ++ "]")
  | .obj props => some ("\x7b" ++ joinComma (serializeMembers props) ++ "\x7d")
/-- Array elements: `undefined` is written as `null`. -/
def serializeElements : List JSValue → List String
  | [] => []
  | x :: xs => ((serialize x).getD "null") :: serializeElements xs
/-- Object members: a property whose value is `undefined` is left out. -/
def serializeMembers : List (String × JSValue) → List String
  | [] => []
  | (k, v) :: rest =>
    match serialize v with
    | some s => (quote k ++ ":" ++ s) :: serializeMembers rest
    | none => serializeMembers rest
end

/-- The string that `localStorage.setItem(key, JSON.stringify(v))` stores (`setItem` turns
the `undefined` result into the text `undefined`). -/
def stringify (v : JSValue) : String := (serialize v).getD "undefined"

def isWs (c : Char) : Bool := c = ' ' || c = '\t' || c = '\n' || c = '\r'

def skipWs : List Char → List Char
  | [] => []
  | c :: cs => if isWs c then skipWs cs else c :: cs

def hexVal (c : Char) : Option Nat :=
  if '0' ≤ c ∧ c ≤ '9' then some (c.toNat - 48)
  else if 'a' ≤ c ∧ c ≤ 'f' then some (c.toNat - 97 + 10)
  else if 'A' ≤ c ∧ c ≤ 'F' then some (c.toNat - 65 + 10)
  else none

/-- Four hexadecimal digits after `\u`. -/
def parseHex4 : List Char → Option (Nat × List Char)
  | a :: b :: c :: d :: rest =>
    match hexVal a, hexVal b, hexVal c, hexVal d with
    | some x, some y, some z, some w => some (((x * 16 + y) * 16 + z) * 16 + w, rest)
    | _, _, _, _ => none
  | _ => none

/-- The character of a `\u` escape; a surrogate code unit is read as U+FFFD. -/
def unicodeChar (n : Nat) : Char :=
  if 0xD800 ≤ n ∧ n ≤ 0xDFFF then Char.ofNat 0xFFFD else Char.ofNat n

/-- The rest of a string literal after its opening quote. -/
def parseStringBody : Nat → List Char → List Char → Option (String × List Char)
  | 0, _, _ => none
  | _ + 1, [], _ => none
  | fuel + 1, c :: cs, acc =>
    if c = '"' then some (String.mk acc.reverse, cs)
    else if c = '\\' then
      match cs with
      | [] => none
      | e :: rest =>
        if e = '"' then parseStringBody fuel rest ('"' :: acc)
        else if e = '\\' then parseStringBody fuel rest ('\\' :: acc)
        else if e = '/' then parseStringBody fuel rest ('/' :: acc)
        else if e = 'b' then parseStringBody fuel rest (Char.ofNat 8 :: acc)
        else if e = 'f' then parseStringBody fuel rest (Char.ofNat 12 :: acc)
        else if e = 'n' then parseStringBody fuel rest ('\n' :: acc)
        else if e = 'r' then parseStringBody fuel rest ('\r' :: acc)
        else if e = 't' then parseStringBody fuel rest ('\t' :: acc)
        else if e = 'u' then
          match parseHex4 rest with
          | some (n, rest2) => parseStringBody fuel rest2 (unicodeChar n :: acc)
          | none => none
        else none
    else if c.toNat < 32 then none
    else parseStringBody fuel cs (c :: acc)

/-- A run of decimal digits: the accumulated value, the number of digits read, the rest. -/
def parseDigits : List Char → Nat → Nat → Nat × Nat × List Char
  | [], acc, n => (acc, n, [])
  | c :: cs, acc, n =>
    if c.isDigit then parseDigits cs (acc * 10 + (c.toNat - 48)) (n + 1) else (acc, n, c :: cs)

/-- The exponent part of a number, if there is one. -/
def parseExponent : List Char → Option (Int × List Char)
  | c :: cs =>
    if c = 'e' ∨ c = 'E' then
      match cs with
      | '+' :: ds =>
        match parseDigits ds 0 0 with
        | (v, n, rest) => if n = 0 then none else some (Int.ofNat v, rest)
      | '-' :: ds =>
        match parseDigits ds 0 0 with
        | (v, n, rest) => if n = 0 then none else some (- Int.ofNat v, rest)
      | ds =>
        match parseDigits ds 0 0 with
        | (v, n, rest) => if n = 0 then none else some (Int.ofNat v, rest)
    else some (0, c :: cs)
  | [] => some (0, [])

/-- An unsigned JSON number: integer part (no leading zero), fraction, exponent. -/
def parseUnsigned (cs : List Char) : Option (Nat × Int × List Char) :=
  match parseDigits cs 0 0 with
  | (ip, n, rest) =>
    if n = 0 then none
    else if 1 < n ∧ cs.head? = some '0' then none
    else
      match rest with
      | '.' :: fs =>
        match parseDigits fs ip 0 with
        | (m, fn, rest2) =>
          if fn = 0 then none
          else
            match parseExponent rest2 with
            | some (e, rest3) => some (m, e - Int.ofNat fn, rest3)
            | none => none
      | _ =>
        match parseExponent rest with
        | some (e, rest3) => some (ip, e, rest3)
        | none => none

def parseNumber : List Char → Option (JSValue × List Char)
  | '-' :: cs =>
    match parseUnsigned cs with
    | some (m, e, rest) => some (.num (- Int.ofNat m) e, rest)
    | none => none
  | cs =>
    match parseUnsigned cs with
    | some (m, e, rest) => some (.num (Int.ofNat m) e, rest)
    | none => none

def startsWithChars (p cs : List Char) : Bool := p.isPrefixOf cs

mutual
/-- One JSON value; every recursive call has consumed input, so fuel above the length of
the text is never exhausted. -/
def parseValue : Nat → List Char → Option (JSValue × List Char)
  | 0, _ => none
  | fuel + 1, cs =>
    match skipWs cs with
    | [] => none
    | c :: rest =>
      if c = '"' then
        match parseStringBody (rest.length + 1) rest [] with
        | some (s, rest2) => some (.str s, rest2)
        | none => none
      else if c = '[' then
        match skipWs rest with
        | ']' :: rest2 => some (.arr [], rest2)
        | rest2 => parseElements fuel rest2 []
      else if c = '\x7b' then
        match skipWs rest with
        | '\x7d' :: rest2 => some (.obj [], rest2)
        | rest2 => parseMembers fuel rest2 []
      else if startsWithChars ['n', 'u', 'l', 'l'] (c :: rest) then some (.null, rest.drop 3)
      else if startsWithChars ['t', 'r', 'u', 'e'] (c :: rest) then some (.bool true, rest.drop 3)
      else if startsWithChars ['f', 'a', 'l', 's', 'e'] (c :: rest) then
        some (.bool false, rest.drop 4)
      else parseNumber (c :: rest)
termination_by structural fuel => fuel
/-- The elements of a non-empty array, up to the closing bracket. -/
def parseElements : Nat → List Char → List JSValue → Option (JSValue × List Char)
  | 0, _, _ => none
  | fuel + 1, cs, acc =>
    match parseValue fuel cs with
    | none => none
    | some (v, rest) =>
      match skipWs rest with
      | ',' :: rest2 => parseElements fuel rest2 (v :: acc)
      | ']' :: rest2 => some (.arr (v :: acc).reverse, rest2)
      | _ => none
termination_by structural fuel => fuel
/-- The members of a non-empty object, up to the closing brace; a repeated name overwrites. -/
def parseMembers : Nat → List Char → Obj → Option (JSValue × List Char)
  | 0, _, _ => none
  | fuel + 1, cs, acc =>
    match skipWs cs with
    | '"' :: rest =>
      match parseStringBody (rest.length + 1) rest [] with
      | none => none
      | some (k, rest2) =>
        match skipWs rest2 with
        | ':' :: rest3 =>
          match parseValue fuel rest3 with
          | none => none
          | some (v, rest4) =>
            match skipWs rest4 with
            | ',' :: rest5 => parseMembers fuel rest5 (Obj.set acc k v)
            | '\x7d' :: rest5 => some (.obj (Obj.set acc k v), rest5)
            | _ => none
        | _ => none
    | _ => none
termination_by structural fuel => fuel
end

/-- The call `JSON.parse(s)`: `none` when it throws a `SyntaxError`. -/
def parse (s : String) : Option JSValue :=
  match parseValue (s.length + 1) s.toList with
  | some (v, rest) => if skipWs rest = [] then some v else none
  | none => none

end JSON

/-! ## settingsStore.js: the settings record -/

/-- The object literal `defaultSettings`. -/
def defaultSettings : Obj :=
  [("language", .str "de"),
   ("theme", .str "auto"),
   ("uiTheme", .str "default"),
   ("fontSize", .str "medium"),
   ("sidebarCollapsed", .bool false),
   ("showWelcomeTiles", .bool false),
   ("showTopBar", .bool true),
   ("markdownEnabled", .bool true),
   ("streamingEnabled", .bool true),
   ("temperature", .num 7 (-1)),
   ("topP", .num 9 (-1)),
   ("topK", .num 40 0),
   ("repeatPenalty", .num 118 (-2)),
   ("contextLength", .num 32768 0),
   ("maxTokens", .num 32768 0),
   ("autoSelectVisionModel", .bool true),
   ("preferredVisionModel", .str "llava:7b"),
   ("visionChainEnabled", .bool true),
   ("cpuOnly", .bool false),
   ("debugMode", .bool false)]

/-- The inner `try` block of `loadSettings` (lines 90-100): the chaining sub-record, when
its string is truthy, overwrites two fields of `merged`; after a throw the `catch` only
logs, so `merged` is as it was where the throw happened. -/
def applyChainingSettings (parse : String → Option JSValue) (ls : Storage) (merged : Obj) :
    Obj :=
  match getItem ls "chainingSettings" with
  | none => merged
  | some chainingSettingsStr =>
    if chainingSettingsStr = "" then merged
    else
      match parse chainingSettingsStr with
      | none => merged
      | some chainingSettings =>
        match getProp chainingSettings "enabled" with
        | .error _ => merged
        | .ok enabled =>
          let merged1 := Obj.set merged "visionChainEnabled" enabled
          match getProp chainingSettings "visionModel" with
          | .error _ => merged1
          | .ok visionModel => Obj.set merged1 "preferredVisionModel" visionModel

/-- The function `loadSettings`; `parse` is `JSON.parse`, `none` standing for a throw. -/
def loadSettings (parse : String → Option JSValue) (ls : Storage) : Obj :=
  match getItem ls STORAGE_KEY with
  | none => spreadInto [] (.obj defaultSettings)
  | some stored =>
    if stored = "" then spreadInto [] (.obj defaultSettings)
    else
      match parse stored with
      | none => spreadInto [] (.obj defaultSettings)
      | some storedSettings =>
        let merged := spreadInto (spreadInto [] (.obj defaultSettings)) storedSettings
        applyChainingSettings parse ls merged

/-- The state of the store: the reactive record `settings.value` and local storage. -/
structure Store where
  settings : Obj
  localStorage : Storage

/-- The callback of `watch(settings, ..., { deep: true })`, which Vue runs after the record
has changed: the whole record is serialised under the settings key. -/
def watchSettings (stringify : JSValue → String) (st : Store) : Store :=
  { st with localStorage := setItem st.localStorage STORAGE_KEY (stringify (.obj st.settings)) }

/-- The action `updateSettings(newSettings)`. -/
def updateSettings (newSettings : JSValue) (st : Store) : Store :=
  { st with settings := spreadInto (spreadInto [] (.obj st.settings)) newSettings }

/-- The action `resetToDefaults()`. -/
def resetToDefaults (st : Store) : Store :=
  { st with settings := spreadInto [] (.obj defaultSettings) }

/-- The action `getSetting(key)`. -/
def getSetting (st : Store) (k : String) : JSValue :=
  (Obj.get st.settings k).getD .undefined

/-- The action `setSetting(key, value)`. -/
def setSetting (k : String) (v : JSValue) (st : Store) : Store :=
  { st with settings := Obj.set st.settings k v }

/-! ## settingsStore.js: pulls from the backend -/

/-- What `await fetch(url)` resolves to: the `ok` flag and the body text of the response. -/
structure Response where
  ok : Bool
  body : String

/-- The read-modify-write of lines 174-179, 195-200 and 218-223: when the settings key holds
a truthy string, it is parsed, one field is set and the result is written back.  A throw
happens before the write. -/
def patchStored (parse : String → Option JSValue) (stringify : JSValue → String)
    (ls : Storage) (field : String) (value : JSValue) : Except JSError Storage :=
  match getItem ls STORAGE_KEY with
  | none => .ok ls
  | some stored =>
    if stored = "" then .ok ls
    else
      match parse stored with
      | none => .error .parseError
      | some storedSettings =>
        match setProp storedSettings field value with
        | .error e => .error e
        | .ok patched => .ok (setItem ls STORAGE_KEY (stringify patched))

/-- The body shared by the pulls once the new value is known: the in-memory field is set,
then the stored record is patched; the `catch` that surrounds it only logs. -/
def applyPulled (parse : String → Option JSValue) (stringify : JSValue → String)
    (field : String) (value : JSValue) (st : Store) : Store :=
  let st1 : Store := { st with settings := Obj.set st.settings field value }
  match patchStored parse stringify st1.localStorage field value with
  | .ok ls => { st1 with localStorage := ls }
  | .error _ => st1

/-- The function `loadShowWelcomeTilesFromBackend`; `fetched` is the outcome of the `fetch`
(`none` when it rejects).  The result is `.ok` when the returned promise fulfils. -/
def loadShowWelcomeTilesFromBackend (parse : String → Option JSValue)
    (stringify : JSValue → String) (fetched : Option Response) (st : Store) :
    Except JSError Store :=
  match fetched with
  | none => .ok st
  | some response =>
    if response.ok then
      match parse response.body with
      | none => .ok st
      | some value => .ok (applyPulled parse stringify "showWelcomeTiles" value st)
    else .ok st

/-- The function `loadShowTopBarFromBackend`. -/
def loadShowTopBarFromBackend (parse : String → Option JSValue)
    (stringify : JSValue → String) (fetched : Option Response) (st : Store) :
    Except JSError Store :=
  match fetched with
  | none => .ok st
  | some response =>
    if response.ok then
      match parse response.body with
      | none => .ok st
      | some value => .ok (applyPulled parse stringify "showTopBar" value st)
    else .ok st

/-- The white space that `String.prototype.trim` strips. -/
def isJsWhiteSpace (c : Char) : Bool :=
  let n := c.toNat
  (9 ≤ n && n ≤ 13) || n = 0x20 || n = 0xA0 || n = 0x1680 || (0x2000 ≤ n && n ≤ 0x200A) ||
    n = 0x2028 || n = 0x2029 || n = 0x202F || n = 0x205F || n = 0x3000 || n = 0xFEFF

/-- The method `String.prototype.trim`. -/
def jsTrim (s : String) : String :=
  String.mk ((s.toList.dropWhile isJsWhiteSpace).reverse.dropWhile isJsWhiteSpace).reverse

/-- The expression `value.replace(/"/g, '').trim() || 'tech-dark'`. -/
def themeOfText (value : String) : String :=
  let t := jsTrim (String.mk (value.toList.filter (fun c => c ≠ '"')))
  if t = "" then "tech-dark" else t

/-- The function `loadUiThemeFromBackend`; the body is read with `response.text()`. -/
def loadUiThemeFromBackend (parse : String → Option JSValue)
    (stringify : JSValue → String) (fetched : Option Response) (st : Store) :
    Except JSError Store :=
  match fetched with
  | none => .ok st
  | some response =>
    if response.ok then
      .ok (applyPulled parse stringify "uiTheme" (.str (themeOfText response.body)) st)
    else .ok st

/-- The function `syncVisionSettingsWithBackend`; `result` is what
`api.getModelSelectionSettings()` resolves to (`none` when it rejects). -/
def syncVisionSettingsWithBackend (stringify : JSValue → String) (result : Option JSValue)
    (st : Store) : Except JSError Store :=
  match result with
  | none => .ok st
  | some backendSettings =>
    if truthy backendSettings then
      match getProp backendSettings "visionModel" with
      | .error _ => .ok st
      | .ok visionModel =>
        let st1 : Store :=
          if truthy visionModel then
            { st with settings := Obj.set st.settings "preferredVisionModel" visionModel }
          else st
        match getProp backendSettings "visionChainingEnabled" with
        | .error _ => .ok st1
        | .ok visionChainingEnabled =>
          let st2 : Store :=
            if isDefined visionChainingEnabled then
              { st1 with
                settings := Obj.set st1.settings "visionChainEnabled" visionChainingEnabled }
            else st1
          let chainingSettings : JSValue :=
            .obj [("enabled", visionChainingEnabled), ("visionModel", visionModel),
              ("showIntermediateOutput", .bool false)]
          .ok { st2 with
                localStorage :=
                  setItem st2.localStorage "chainingSettings" (stringify chainingSettings) }
    else .ok st

/-! ## main.js: the version check before the application is mounted -/

def VERSION_STORAGE_KEY : String := "fleet-navigator-version"

/-- The array `keysToKeep`. -/
def keysToKeep : List String := ["fleet-navigator-chat-cache", "fleet-navigator-selected-model"]

mutual
/-- The string that `localStorage.setItem(key, v)` stores for a value `v` (the ToString
conversion; an array is joined with commas, `null` and `undefined` elements being empty). -/
def toJSString : JSValue → String
  | .undefined => "undefined"
  | .null => "null"
  | .bool b => if b then "true" else "false"
  | .num m e => JSON.numToString m e
  | .str s => s
  | .arr xs => JSON.joinComma (elementStrings xs)
  | .obj _ => "[object Object]"
/-- The texts of the elements of an array for `toJSString`. -/
def elementStrings : List JSValue → List String
  | [] => []
  | .undefined :: xs => "" :: elementStrings xs
  | .null :: xs => "" :: elementStrings xs
  | x :: xs => toJSString x :: elementStrings xs
end

/-- The browser's `caches` object as the check uses it: what `caches.keys()` resolves to and
what `caches.delete(name)` resolves to, `none` standing for a rejected promise. -/
structure CacheStorage where
  keys : Option (List String)
  delete : String → Option Bool

/-- The block `if ('caches' in window) ...` (lines 50-54); `caches` is `none` when the
browser has no Cache API.  The result is `.error` when an awaited promise rejects. -/
def clearBrowserCaches (caches : Option CacheStorage) : Except JSError Unit :=
  match caches with
  | none => .ok ()
  | some c =>
    match c.keys with
    | none => .error .securityError
    | some cacheNames =>
      if cacheNames.all (fun name => (c.delete name).isSome) then .ok ()
      else .error .securityError

/-- The loop `keysToKeep.forEach(...)` that fills `savedData` with the truthy values. -/
def savedData (ls : Storage) : Obj :=
  keysToKeep.foldl
    (fun acc k =>
      match getItem ls k with
      | some value => if value = "" then acc else Obj.set acc k (.str value)
      | none => acc)
    []

/-- The outcome of `checkVersionAndClearCache`: local storage afterwards, the value the
promise resolves to (`none` for `undefined`), and whether `window.location.reload` ran. -/
structure GateResult where
  localStorage : Storage
  returned : Option Bool
  reloaded : Bool

/-- The function `checkVersionAndClearCache` of main.js; `fetched` is the outcome of
`fetch('/api/system/version')` (`none` when it rejects). -/
def checkVersionAndClearCache (parse : String → Option JSValue) (fetched : Option Response)
    (caches : Option CacheStorage) (ls : Storage) : GateResult :=
  match fetched with
  | none => { localStorage := ls, returned := some true, reloaded := false }
  | some response =>
    if !response.ok then { localStorage := ls, returned := none, reloaded := false }
    else
      match parse response.body with
      | none => { localStorage := ls, returned := some true, reloaded := false }
      | some versionInfo =>
        match getProp versionInfo "version" with
        | .error _ => { localStorage := ls, returned := some true, reloaded := false }
        | .ok currentVersion =>
          match getItem ls VERSION_STORAGE_KEY with
          | none =>
            { localStorage := setItem ls VERSION_STORAGE_KEY (toJSString currentVersion),
              returned := some true, reloaded := false }
          | some storedVersion =>
            if storedVersion ≠ "" && strictNeStr storedVersion currentVersion then
              let saved := savedData ls
              let ls1 := clear ls
              let ls2 := saved.foldl (fun l e => setItem l e.1 (toJSString e.2)) ls1
              let ls3 := setItem ls2 VERSION_STORAGE_KEY (toJSString currentVersion)
              match clearBrowserCaches caches with
              | .error _ => { localStorage := ls3, returned := some true, reloaded := false }
              | .ok _ => { localStorage := ls3, returned := some false, reloaded := true }
            else
              { localStorage := setItem ls VERSION_STORAGE_KEY (toJSString currentVersion),
                returned := some true, reloaded := false }

/-- The test `shouldMount !== false` of the `.then` callback: whether the app is mounted. -/
def mounts (r : GateResult) : Bool :=
  match r.returned with
  | some false => false
  | _ => true

/-! ## Concrete states used to instantiate the results -/

/-- A storage without version marker that holds a settings record and a foreign key. -/
def storageNoMarker : Storage :=
  [("fleet-navigator-settings", "\x7b\"theme\":\"dark\"\x7d"), ("other-app", "1")]

/-- A storage left behind by version 2.1.0. -/
def storageOldVersion : Storage :=
  [("fleet-navigator-version", "2.1.0"),
   ("fleet-navigator-settings", "\x7b\"theme\":\"dark\"\x7d"),
   ("chainingSettings", "\x7b\"enabled\":false,\"visionModel\":\"moondream:latest\"\x7d"),
   ("other-app", "1")]

/-- The text of the chaining sub-record of the spec's example. -/
def chainingText : String := "\x7b\"enabled\":false,\"visionModel\":\"moondream:latest\"\x7d"

/-- The text of a primary record that disagrees with `chainingText` on both fields. -/
def primaryText : String :=
  "\x7b\"visionChainEnabled\":true,\"preferredVisionModel\":\"llava:13b\",\"theme\":\"dark\"\x7d"

/-- A storage that holds the chaining sub-record and no primary settings record. -/
def storageChainingOnly : Storage := [("chainingSettings", chainingText)]

/-- A storage that holds both records. -/
def storageBoth : Storage :=
  [("fleet-navigator-settings", primaryText), ("chainingSettings", chainingText)]

/-- A storage whose primary record is an array and whose chaining sub-record is a number. -/
def storageOddShapes : Storage :=
  [("fleet-navigator-settings", "[true]"), ("chainingSettings", "0")]

/-- A storage whose primary record is not valid JSON. -/
def storageBadPrimary : Storage :=
  [("fleet-navigator-settings", "\x7boops"), ("chainingSettings", chainingText)]

/-- A storage whose chaining sub-record is not valid JSON. -/
def storageBadChaining : Storage :=
  [("fleet-navigator-settings", primaryText), ("chainingSettings", "\x7boops")]

/-- A store right after start: the default record in memory, the same record persisted. -/
def storeDefaults : Store :=
  { settings := defaultSettings,
    localStorage :=
      [("fleet-navigator-version", "2.2.0"),
       ("fleet-navigator-settings", JSON.stringify (.obj defaultSettings))] }

/-- A response with a non-success status. -/
def responseError : Response := { ok := false, body := "Internal Server Error" }

/-- A backend answer whose vision model is `null`. -/
def backendNullModel : JSValue :=
  .obj [("visionModel", .null), ("visionChainingEnabled", .bool false)]

/-- A successful answer of the version endpoint for version 2.2.0. -/
def responseVersion : Response := { ok := true, body := "\x7b\"version\":\"2.2.0\"\x7d" }

/-- A storage written by the running version 2.2.0. -/
def storageCurrentVersion : Storage :=
  [("fleet-navigator-version", "2.2.0"),
   ("fleet-navigator-settings", "\x7b\"theme\":\"dark\"\x7d"),
   ("chainingSettings", "\x7b\"enabled\":false,\"visionModel\":\"moondream:latest\"\x7d"),
   ("fleet-navigator-chat-cache", ""),
   ("other-app", "1")]

/-! ## Lemmas on local storage -/

theorem getItem_setItem_same (ls : Storage) (k v : String) :
    getItem (setItem ls k v) k = some v := by
  induction ls with
  | nil => simp [setItem, getItem]
  | cons e rest ih =>
    obtain ⟨k', v'⟩ := e
    by_cases h : k' = k
    · simp [setItem, getItem, h]
    · simp [setItem, getItem, h, ih]

theorem getItem_setItem_other (ls : Storage) (k v k2 : String) (hk : k2 ≠ k) :
    getItem (setItem ls k v) k2 = getItem ls k2 := by
  induction ls with
  | nil => simp [setItem, getItem, Ne.symm hk]
  | cons e rest ih =>
    obtain ⟨k', v'⟩ := e
    by_cases h : k' = k
    · subst h
      simp [setItem, getItem, Ne.symm hk]
    · by_cases h2 : k' = k2
      · subst h2
        simp [setItem, getItem, h]
      · simp [setItem, getItem, h, h2, ih]

theorem getItem_removeItem (ls : Storage) (k k2 : String) :
    getItem (removeItem ls k) k2 = if k2 = k then none else getItem ls k2 := by
  induction ls with
  | nil => simp [removeItem, getItem]
  | cons e rest ih =>
    obtain ⟨k', v'⟩ := e
    unfold removeItem at ih ⊢
    by_cases h : k' = k
    · subst h
      by_cases h2 : k2 = k'
      · simp [List.filter, getItem, h2] at ih ⊢
        simpa [h2] using ih
      · have h3 : ¬ k' = k2 := fun e => h2 e.symm
        simp [List.filter, getItem, h2, h3] at ih ⊢
        simpa [h2] using ih
    · by_cases h2 : k2 = k
      · subst h2
        simp [List.filter, getItem, h] at ih ⊢
        simpa using ih
      · by_cases h3 : k' = k2
        · simp [List.filter, getItem, h, h2, h3]
        · simp [List.filter, getItem, h, h2, h3] at ih ⊢
          simpa [h2] using ih

theorem getItem_foldl_removeItem (ks : List String) (ls : Storage) (k2 : String) :
    getItem (ks.foldl removeItem ls) k2 = if k2 ∈ ks then none else getItem ls k2 := by
  induction ks generalizing ls with
  | nil => simp
  | cons k rest ih =>
    simp only [List.foldl_cons, ih, getItem_removeItem, List.mem_cons]
    by_cases h1 : k2 = k <;> by_cases h2 : k2 ∈ rest <;> simp [h1, h2]

theorem getItem_eq_none_of_not_mem (ls : Storage) (k : String)
    (h : k ∉ ls.map Prod.fst) : getItem ls k = none := by
  induction ls with
  | nil => simp [getItem]
  | cons e rest ih =>
    obtain ⟨k', v'⟩ := e
    simp only [List.map_cons, List.mem_cons, not_or] at h
    simp [getItem, Ne.symm h.1, ih h.2]

/-! ## The version gate of settingsStore.js -/

theorem keysToRemove_fold (ls : Storage) (n : Nat) (hn : n ≤ ls.length) :
    (List.range n).foldl
      (fun acc i =>
        match key ls i with
        | some k => if isAppKey (some k) then acc ++ [k] else acc
        | none => acc)
      [] = ((ls.take n).map Prod.fst).filter (fun k => isAppKey (some k)) := by
  induction n with
  | zero => simp
  | succ n ih =>
    have hlt : n < ls.length := hn
    rw [List.range_succ, List.foldl_append, ih (Nat.le_of_lt hlt), List.take_succ]
    have hget : ls[n]? = some ls[n] := List.getElem?_eq_getElem hlt
    simp only [List.foldl_cons, List.foldl_nil, key, List.get?_eq_getElem?, hget,
      Option.map_some', Option.toList, List.map_append, List.filter_append, List.map_cons,
      List.map_nil]
    by_cases hk : isAppKey (some ls[n].1) = true
    · simp [hk, List.filter]
    · simp [hk, List.filter]

theorem keysToRemove_eq (ls : Storage) :
    keysToRemove ls = (ls.map Prod.fst).filter (fun k => isAppKey (some k)) := by
  unfold keysToRemove localStorage.length
  rw [keysToRemove_fold ls ls.length (Nat.le_refl _), List.take_length]

theorem mem_keysToRemove (ls : Storage) (k : String) :
    k ∈ keysToRemove ls ↔ k ∈ ls.map Prod.fst ∧ isAppKey (some k) = true := by
  rw [keysToRemove_eq, List.mem_filter]

theorem isAppKey_of_startsWith (k : String)
    (h : startsWith k "fleet-navigator" = true ∨ startsWith k "chaining" = true) :
    isAppKey (some k) = true := by
  have hne : k ≠ "" := by
    intro he
    subst he
    rcases h with h | h <;> simp [startsWith] at h
  rcases h with h | h <;> simp [isAppKey, hne, h]

theorem isAppKey_false_of_not_startsWith (k : String)
    (h1 : startsWith k "fleet-navigator" = false) (h2 : startsWith k "chaining" = false) :
    isAppKey (some k) = false := by
  simp [isAppKey, h1, h2]

/-- What the purge branch of the gate leaves behind, key by key. -/
theorem getItem_purge (ls : Storage) (cv k : String) :
    getItem (setItem ((keysToRemove ls).foldl removeItem ls) VERSION_KEY cv) k =
      if k = VERSION_KEY then some cv
      else if isAppKey (some k) = true then none
      else getItem ls k := by
  by_cases hk : k = VERSION_KEY
  · subst hk
    simp [getItem_setItem_same]
  · rw [getItem_setItem_other _ _ _ _ hk, getItem_foldl_removeItem, if_neg hk]
    by_cases ha : isAppKey (some k) = true
    · by_cases hm : k ∈ ls.map Prod.fst
      · have : k ∈ keysToRemove ls := (mem_keysToRemove ls k).2 ⟨hm, ha⟩
        simp [this, ha]
      · have hnot : k ∉ keysToRemove ls := fun hc => hm ((mem_keysToRemove ls k).1 hc).1
        simp [hnot, ha, getItem_eq_none_of_not_mem ls k hm]
    · have hnot : k ∉ keysToRemove ls := fun hc => ha ((mem_keysToRemove ls k).1 hc).2
      simp [hnot, ha]

theorem VERSION_KEY_not_chaining : startsWith VERSION_KEY "chaining" = false := by decide

theorem VERSION_KEY_startsWith_app : startsWith VERSION_KEY "fleet-navigator" = true := by decide

/-! ## Lemmas on objects and on loading -/

theorem Obj.get_set_same (o : Obj) (k : String) (v : JSValue) :
    Obj.get (Obj.set o k v) k = some v := by
  induction o with
  | nil => simp [Obj.set, Obj.get]
  | cons e rest ih =>
    obtain ⟨k', v'⟩ := e
    by_cases h : k' = k
    · simp [Obj.set, Obj.get, h]
    · simp [Obj.set, Obj.get, h, ih]

theorem Obj.get_set_other (o : Obj) (k k2 : String) (v : JSValue) (hk : k2 ≠ k) :
    Obj.get (Obj.set o k v) k2 = Obj.get o k2 := by
  induction o with
  | nil => simp [Obj.set, Obj.get, Ne.symm hk]
  | cons e rest ih =>
    obtain ⟨k', v'⟩ := e
    by_cases h : k' = k
    · subst h
      simp [Obj.set, Obj.get, Ne.symm hk]
    · by_cases h2 : k' = k2
      · subst h2
        simp [Obj.set, Obj.get, h]
      · simp [Obj.set, Obj.get, h, h2, ih]

theorem Obj.mem_keys_set (o : Obj) (k k2 : String) (v : JSValue) :
    k2 ∈ Obj.keys (Obj.set o k v) ↔ k2 = k ∨ k2 ∈ Obj.keys o := by
  induction o with
  | nil => simp [Obj.set, Obj.keys]
  | cons e rest ih =>
    obtain ⟨k', v'⟩ := e
    unfold Obj.keys at ih ⊢
    by_cases h : k' = k
    · subst h
      simp [Obj.set]
    · simp only [Obj.set, h, if_false, List.map_cons, List.mem_cons, ih]
      tauto

theorem Obj.hasKey_set_of_hasKey (o : Obj) (k k2 : String) (v : JSValue)
    (h : Obj.hasKey o k2) : Obj.hasKey (Obj.set o k v) k2 :=
  (Obj.mem_keys_set o k k2 v).2 (Or.inr h)

/-- A fold of property writes never drops a property. -/
theorem hasKey_foldl_set {α : Type} (xs : List α) (f : α → String) (g : α → JSValue)
    (target : Obj) (k : String) (h : Obj.hasKey target k) :
    Obj.hasKey (xs.foldl (fun acc e => Obj.set acc (f e) (g e)) target) k := by
  induction xs generalizing target with
  | nil => exact h
  | cons x rest ih =>
    simp only [List.foldl_cons]
    exact ih _ (Obj.hasKey_set_of_hasKey target (f x) k (g x) h)

theorem hasKey_spreadInto (target : Obj) (src : JSValue) (k : String)
    (h : Obj.hasKey target k) : Obj.hasKey (spreadInto target src) k := by
  cases src with
  | undefined => exact h
  | null => exact h
  | bool b => exact h
  | num m e => exact h
  | str s =>
    exact hasKey_foldl_set s.toList.enum (fun e => toString e.1)
      (fun e => JSValue.str (String.singleton e.2)) target k h
  | arr xs => exact hasKey_foldl_set xs.enum (fun e => toString e.1) (fun e => e.2) target k h
  | obj props => exact hasKey_foldl_set props (fun e => e.1) (fun e => e.2) target k h

theorem hasKey_applyChainingSettings (parse : String → Option JSValue) (ls : Storage)
    (merged : Obj) (k : String) (h : Obj.hasKey merged k) :
    Obj.hasKey (applyChainingSettings parse ls merged) k := by
  unfold applyChainingSettings
  split
  · exact h
  · split
    · exact h
    · split
      · exact h
      · split
        · exact h
        · rename_i enabled _
          have h1 : Obj.hasKey (Obj.set merged "visionChainEnabled" enabled) k :=
            Obj.hasKey_set_of_hasKey merged "visionChainEnabled" k enabled h
          split
          · exact h1
          · exact Obj.hasKey_set_of_hasKey _ "preferredVisionModel" k _ h1

/-- The copy `{ ...defaultSettings }` has the properties of `defaultSettings`, in order. -/
theorem spreadInto_defaultSettings :
    spreadInto [] (.obj defaultSettings) = defaultSettings := by
  rfl

theorem Obj.keys_set (o : Obj) (k : String) (v : JSValue) :
    Obj.keys (Obj.set o k v) = if k ∈ Obj.keys o then Obj.keys o else Obj.keys o ++ [k] := by
  induction o with
  | nil => simp [Obj.set, Obj.keys]
  | cons e rest ih =>
    obtain ⟨k', v'⟩ := e
    unfold Obj.keys at ih ⊢
    by_cases h : k' = k
    · subst h
      simp [Obj.set]
    · have h2 : ¬ k = k' := fun e => h e.symm
      simp only [Obj.set, h, if_false, List.map_cons, ih, List.mem_cons, h2, false_or]
      split <;> simp

theorem Obj.nodup_keys_set (o : Obj) (k : String) (v : JSValue)
    (h : (Obj.keys o).Nodup) : (Obj.keys (Obj.set o k v)).Nodup := by
  rw [Obj.keys_set]
  split
  · exact h
  · rename_i hk
    exact List.Nodup.append h (List.nodup_singleton k) (by simpa using hk)

theorem nodup_keys_foldl_set {α : Type} (xs : List α) (f : α → String) (g : α → JSValue)
    (target : Obj) (h : (Obj.keys target).Nodup) :
    (Obj.keys (xs.foldl (fun acc e => Obj.set acc (f e) (g e)) target)).Nodup := by
  induction xs generalizing target with
  | nil => exact h
  | cons x rest ih =>
    simp only [List.foldl_cons]
    exact ih _ (Obj.nodup_keys_set target (f x) (g x) h)

theorem nodup_keys_spreadInto (target : Obj) (src : JSValue)
    (h : (Obj.keys target).Nodup) : (Obj.keys (spreadInto target src)).Nodup := by
  cases src with
  | undefined => exact h
  | null => exact h
  | bool b => exact h
  | num m e => exact h
  | str s =>
    exact nodup_keys_foldl_set s.toList.enum (fun e => toString e.1)
      (fun e => JSValue.str (String.singleton e.2)) target h
  | arr xs => exact nodup_keys_foldl_set xs.enum (fun e => toString e.1) (fun e => e.2) target h
  | obj props => exact nodup_keys_foldl_set props (fun e => e.1) (fun e => e.2) target h

theorem nodup_keys_applyChainingSettings (parse : String → Option JSValue) (ls : Storage)
    (merged : Obj) (h : (Obj.keys merged).Nodup) :
    (Obj.keys (applyChainingSettings parse ls merged)).Nodup := by
  unfold applyChainingSettings
  split
  · exact h
  · split
    · exact h
    · split
      · exact h
      · split
        · exact h
        · rename_i enabled _
          have h1 : (Obj.keys (Obj.set merged "visionChainEnabled" enabled)).Nodup :=
            Obj.nodup_keys_set merged "visionChainEnabled" enabled h
          split
          · exact h1
          · exact Obj.nodup_keys_set _ "preferredVisionModel" _ h1

/-- The record that `loadSettings` returns is a well-formed object. -/
theorem nodup_keys_loadSettings (parse : String → Option JSValue) (ls : Storage) :
    (Obj.keys (loadSettings parse ls)).Nodup := by
  have base : (Obj.keys (spreadInto [] (.obj defaultSettings))).Nodup :=
    nodup_keys_spreadInto [] _ (by simp [Obj.keys])
  unfold loadSettings
  split
  · exact base
  · split
    · exact base
    · split
      · exact base
      · exact nodup_keys_applyChainingSettings parse ls _ (nodup_keys_spreadInto _ _ base)

/-- The record that `updateSettings` leaves in memory is a well-formed object. -/
theorem nodup_keys_updateSettings (newSettings : JSValue) (st : Store) :
    (Obj.keys (updateSettings newSettings st).settings).Nodup :=
  nodup_keys_spreadInto _ _ (nodup_keys_spreadInto [] _ (by simp [Obj.keys]))

/-! ## Lemmas on the version check of main.js -/

/-- With a truthy `visionModel` and a defined `visionChainingEnabled` in the backend
answer, the sync sets both in-memory fields and writes the same two values to the
`chainingSettings` key. -/
theorem syncVisionSettingsWithBackend_fields_present (stringify : JSValue → String)
    (props : Obj) (st : Store) (vm en : JSValue)
    (hvm : Obj.get props "visionModel" = some vm) (hvmt : truthy vm = true)
    (hen : Obj.get props "visionChainingEnabled" = some en) (hend : isDefined en = true) :
    syncVisionSettingsWithBackend stringify (some (.obj props)) st
      = .ok { settings :=
                Obj.set (Obj.set st.settings "preferredVisionModel" vm) "visionChainEnabled" en,
              localStorage :=
                setItem st.localStorage "chainingSettings"
                  (stringify (.obj [("enabled", en), ("visionModel", vm),
                    ("showIntermediateOutput", .bool false)])) } := by
  simp only [syncVisionSettingsWithBackend, getProp, hvm, hen, Option.getD_some, hvmt, hend,
    if_true]
  simp [truthy]

/-! ## Writing back the value a key already holds -/

/-- Storing under a key the value it already holds leaves local storage as it is. -/
theorem setItem_eq_self (ls : Storage) (k v : String) (h : getItem ls k = some v) :
    setItem ls k v = ls := by
  induction ls with
  | nil => simp [getItem] at h
  | cons e rest ih =>
    obtain ⟨k', v'⟩ := e
    by_cases hk : k' = k
    · subst hk
      simp only [getItem, if_true, Option.some.injEq] at h
      simp [setItem, h]
    · simp only [getItem, hk, if_false] at h
      simp [setItem, hk, ih h]

/-! ## The claims -/

/-- Claim C1, as stated, fails: with no version marker stored, the gate of settingsStore.js
removes the stored settings record, a key other than the version key. -/
theorem checkVersionAndClearCacheIfNeeded_no_marker_removes_settings :
    getItem storageNoMarker VERSION_KEY = none ∧
    getItem storageNoMarker "fleet-navigator-settings" = some "\x7b\"theme\":\"dark\"\x7d" ∧
    getItem (checkVersionAndClearCacheIfNeeded "2.2.0" storageNoMarker).1
      "fleet-navigator-settings" = none := by
  decide

/-- Claim C1, amended: with no version marker stored, the gate of settingsStore.js stores
the current version under the version key and returns true; it removes every key that
starts with `fleet-navigator` or `chaining`, and every key that starts with neither keeps
its prior value. -/
theorem checkVersionAndClearCacheIfNeeded_no_marker (appVersion : String) (ls : Storage)
    (hnone : getItem ls VERSION_KEY = none) :
    (checkVersionAndClearCacheIfNeeded appVersion ls).2 = true ∧
    getItem (checkVersionAndClearCacheIfNeeded appVersion ls).1 VERSION_KEY
      = some (currentVersion appVersion) ∧
    (∀ k, k ≠ VERSION_KEY →
      startsWith k "fleet-navigator" = true ∨ startsWith k "chaining" = true →
      getItem (checkVersionAndClearCacheIfNeeded appVersion ls).1 k = none) ∧
    (∀ k, startsWith k "fleet-navigator" = false → startsWith k "chaining" = false →
      getItem (checkVersionAndClearCacheIfNeeded appVersion ls).1 k = getItem ls k) := by
  have hne : getItem ls VERSION_KEY ≠ some (currentVersion appVersion) := by
    rw [hnone]; exact fun h => Option.noConfusion h
  simp only [checkVersionAndClearCacheIfNeeded, if_pos hne]
  refine ⟨trivial, ?_, ?_, ?_⟩
  · rw [getItem_purge, if_pos rfl]
  · intro k hk hp
    rw [getItem_purge, if_neg hk, if_pos (isAppKey_of_startsWith k hp)]
  · intro k h1 h2
    have hk : k ≠ VERSION_KEY := by
      intro he
      rw [he, VERSION_KEY_startsWith_app] at h1
      exact Bool.noConfusion h1
    have ha : ¬ isAppKey (some k) = true := by
      rw [isAppKey_false_of_not_startsWith k h1 h2]
      exact Bool.noConfusion
    rw [getItem_purge, if_neg hk, if_neg ha]

/-- The amended claim C1 applies to a storage without marker that holds other keys. -/
theorem checkVersionAndClearCacheIfNeeded_no_marker_witness :
    getItem storageNoMarker VERSION_KEY = none ∧
    ((checkVersionAndClearCacheIfNeeded "2.2.0" storageNoMarker).2 = true ∧
    getItem (checkVersionAndClearCacheIfNeeded "2.2.0" storageNoMarker).1 VERSION_KEY
      = some (currentVersion "2.2.0") ∧
    (∀ k, k ≠ VERSION_KEY →
      startsWith k "fleet-navigator" = true ∨ startsWith k "chaining" = true →
      getItem (checkVersionAndClearCacheIfNeeded "2.2.0" storageNoMarker).1 k = none) ∧
    (∀ k, startsWith k "fleet-navigator" = false → startsWith k "chaining" = false →
      getItem (checkVersionAndClearCacheIfNeeded "2.2.0" storageNoMarker).1 k
        = getItem storageNoMarker k)) :=
  ⟨by decide, checkVersionAndClearCacheIfNeeded_no_marker "2.2.0" storageNoMarker (by decide)⟩

/-- Claim C2: when the stored version marker differs from the current version, the gate of
settingsStore.js returns true, the version key holds the current version, every other key
that starts with `fleet-navigator` or `chaining` is gone, and every key that starts with
neither is present with its prior value exactly as before. -/
theorem checkVersionAndClearCacheIfNeeded_version_changed (appVersion : String)
    (ls : Storage) (v : String) (hstored : getItem ls VERSION_KEY = some v)
    (hdiff : v ≠ currentVersion appVersion) :
    (checkVersionAndClearCacheIfNeeded appVersion ls).2 = true ∧
    getItem (checkVersionAndClearCacheIfNeeded appVersion ls).1 VERSION_KEY
      = some (currentVersion appVersion) ∧
    (∀ k, k ≠ VERSION_KEY →
      startsWith k "fleet-navigator" = true ∨ startsWith k "chaining" = true →
      getItem (checkVersionAndClearCacheIfNeeded appVersion ls).1 k = none) ∧
    (∀ k, startsWith k "fleet-navigator" = false → startsWith k "chaining" = false →
      getItem (checkVersionAndClearCacheIfNeeded appVersion ls).1 k = getItem ls k) := by
  have hne : getItem ls VERSION_KEY ≠ some (currentVersion appVersion) := by
    rw [hstored]; exact fun h => hdiff (Option.some.inj h)
  simp only [checkVersionAndClearCacheIfNeeded, if_pos hne]
  refine ⟨trivial, ?_, ?_, ?_⟩
  · rw [getItem_purge, if_pos rfl]
  · intro k hk hp
    rw [getItem_purge, if_neg hk, if_pos (isAppKey_of_startsWith k hp)]
  · intro k h1 h2
    have hk : k ≠ VERSION_KEY := by
      intro he
      rw [he, VERSION_KEY_startsWith_app] at h1
      exact Bool.noConfusion h1
    have ha : ¬ isAppKey (some k) = true := by
      rw [isAppKey_false_of_not_startsWith k h1 h2]
      exact Bool.noConfusion
    rw [getItem_purge, if_neg hk, if_neg ha]

/-- Claim C2 applies to a storage left behind by version 2.1.0 when 2.2.0 starts. -/
theorem checkVersionAndClearCacheIfNeeded_version_changed_witness :
    (getItem storageOldVersion VERSION_KEY = some "2.1.0" ∧ "2.1.0" ≠ currentVersion "2.2.0") ∧
    ((checkVersionAndClearCacheIfNeeded "2.2.0" storageOldVersion).2 = true ∧
    getItem (checkVersionAndClearCacheIfNeeded "2.2.0" storageOldVersion).1 VERSION_KEY
      = some (currentVersion "2.2.0") ∧
    (∀ k, k ≠ VERSION_KEY →
      startsWith k "fleet-navigator" = true ∨ startsWith k "chaining" = true →
      getItem (checkVersionAndClearCacheIfNeeded "2.2.0" storageOldVersion).1 k = none) ∧
    (∀ k, startsWith k "fleet-navigator" = false → startsWith k "chaining" = false →
      getItem (checkVersionAndClearCacheIfNeeded "2.2.0" storageOldVersion).1 k
        = getItem storageOldVersion k)) :=
  ⟨⟨by decide, by decide⟩,
    checkVersionAndClearCacheIfNeeded_version_changed "2.2.0" storageOldVersion "2.1.0"
      (by decide) (by decide)⟩

/-- Claim C3, as stated, fails: with the chaining sub-record of the spec's example in
storage and no primary settings record, `loadSettings` returns the defaults for both
fields, not the values of the sub-record. -/
theorem loadSettings_chaining_ignored_without_primary :
    getItem storageChainingOnly STORAGE_KEY = none ∧
    getItem storageChainingOnly "chainingSettings" = some chainingText ∧
    JSON.parse chainingText
      = some (.obj [("enabled", .bool false), ("visionModel", .str "moondream:latest")]) ∧
    Obj.get (loadSettings JSON.parse storageChainingOnly) "visionChainEnabled"
      = some (.bool true) ∧
    Obj.get (loadSettings JSON.parse storageChainingOnly) "preferredVisionModel"
      = some (.str "llava:7b") ∧
    ¬ (Obj.get (loadSettings JSON.parse storageChainingOnly) "visionChainEnabled"
        = some (.bool false) ∧
      Obj.get (loadSettings JSON.parse storageChainingOnly) "preferredVisionModel"
        = some (.str "moondream:latest")) := by
  have h1 : Obj.get (loadSettings JSON.parse storageChainingOnly) "visionChainEnabled"
      = some (.bool true) := rfl
  refine ⟨rfl, rfl, rfl, h1, rfl, ?_⟩
  intro h
  rw [h1] at h
  simp at h

/-- Claim C3, amended: when the settings key holds a non-empty string that parses and the
`chainingSettings` key holds a record with fields `enabled = e` and `visionModel = m`, the
record returned by `loadSettings` has `visionChainEnabled = e` and
`preferredVisionModel = m`, whatever the primary record holds for these two fields. -/
theorem loadSettings_chaining_overrides (parse : String → Option JSValue) (ls : Storage)
    (stored cstr : String) (primary : JSValue) (props : Obj) (e m : JSValue)
    (hs : getItem ls STORAGE_KEY = some stored) (hs0 : stored ≠ "")
    (hp : parse stored = some primary)
    (hc : getItem ls "chainingSettings" = some cstr) (hc0 : cstr ≠ "")
    (hcp : parse cstr = some (.obj props))
    (he : Obj.get props "enabled" = some e) (hm : Obj.get props "visionModel" = some m) :
    Obj.get (loadSettings parse ls) "visionChainEnabled" = some e ∧
    Obj.get (loadSettings parse ls) "preferredVisionModel" = some m := by
  have hne : ("visionChainEnabled" : String) ≠ "preferredVisionModel" := by decide
  simp only [loadSettings, hs, hs0, if_false, hp, applyChainingSettings, hc, hc0, hcp,
    getProp, he, hm, Option.getD_some]
  exact ⟨by rw [Obj.get_set_other _ _ _ _ hne, Obj.get_set_same], Obj.get_set_same _ _ _⟩

/-- The amended claim C3 applies to a storage whose primary record holds conflicting
values for both fields. -/
theorem loadSettings_chaining_overrides_witness :
    (getItem storageBoth STORAGE_KEY = some primaryText ∧
      getItem storageBoth "chainingSettings" = some chainingText) ∧
    (Obj.get (loadSettings JSON.parse storageBoth) "visionChainEnabled" = some (.bool false) ∧
      Obj.get (loadSettings JSON.parse storageBoth) "preferredVisionModel"
        = some (.str "moondream:latest")) :=
  ⟨⟨rfl, rfl⟩,
    loadSettings_chaining_overrides JSON.parse storageBoth primaryText chainingText
      (.obj [("visionChainEnabled", .bool true), ("preferredVisionModel", .str "llava:13b"),
        ("theme", .str "dark")])
      [("enabled", .bool false), ("visionModel", .str "moondream:latest")]
      (.bool false) (.str "moondream:latest")
      rfl (by decide) rfl rfl (by decide) rfl rfl rfl⟩

/-- Claim C4: whatever local storage holds and whatever `JSON.parse` returns for it, the
record returned by `loadSettings` contains every key of `defaultSettings`. -/
theorem loadSettings_has_default_keys (parse : String → Option JSValue) (ls : Storage)
    (k : String) (hk : k ∈ Obj.keys defaultSettings) :
    Obj.hasKey (loadSettings parse ls) k := by
  have base : Obj.hasKey (spreadInto [] (.obj defaultSettings)) k := by
    rw [spreadInto_defaultSettings]; exact hk
  unfold loadSettings
  split
  · exact base
  · split
    · exact base
    · split
      · exact base
      · exact hasKey_applyChainingSettings parse ls _ k (hasKey_spreadInto _ _ k base)

/-- Claim C4 applies to a storage whose primary record is an array and whose chaining
sub-record is a number. -/
theorem loadSettings_has_default_keys_witness :
    "maxTokens" ∈ Obj.keys defaultSettings ∧
    Obj.hasKey (loadSettings JSON.parse storageOddShapes) "maxTokens" :=
  ⟨by decide, loadSettings_has_default_keys JSON.parse storageOddShapes "maxTokens" (by decide)⟩

/-- Claim C8: a stored string that `JSON.parse` rejects falls back to defaults for that
record.  If the primary string is unparsable, `loadSettings` returns the properties of
`defaultSettings`; if the primary string parses and the `chainingSettings` string is
unparsable, it returns `defaultSettings` overlaid with the stored primary record. -/
theorem loadSettings_malformed_json (parse : String → Option JSValue) (ls : Storage)
    (stored : String) (hs : getItem ls STORAGE_KEY = some stored) :
    (parse stored = none → loadSettings parse ls = defaultSettings) ∧
    (∀ (primary : JSValue) (cstr : String), stored ≠ "" → parse stored = some primary →
      getItem ls "chainingSettings" = some cstr → parse cstr = none →
      loadSettings parse ls = spreadInto defaultSettings primary) := by
  constructor
  · intro hp
    by_cases h0 : stored = ""
    · simp only [loadSettings, hs, h0, if_true, spreadInto_defaultSettings]
    · simp only [loadSettings, hs, h0, if_false, hp, spreadInto_defaultSettings]
  · intro primary cstr h0 hp hc hcp
    by_cases hc0 : cstr = ""
    · simp only [loadSettings, hs, h0, if_false, hp, applyChainingSettings, hc, hc0, if_true,
        spreadInto_defaultSettings]
    · simp only [loadSettings, hs, h0, if_false, hp, applyChainingSettings, hc, hc0, hcp,
        spreadInto_defaultSettings]

/-- Claim C8 applies to a storage with an unparsable primary string and to one with an
unparsable chaining string. -/
theorem loadSettings_malformed_json_witness :
    (JSON.parse "\x7boops" = none ∧
      loadSettings JSON.parse storageBadPrimary = defaultSettings) ∧
    loadSettings JSON.parse storageBadChaining
      = spreadInto defaultSettings
          (.obj [("visionChainEnabled", .bool true),
            ("preferredVisionModel", .str "llava:13b"), ("theme", .str "dark")]) :=
  ⟨⟨rfl, (loadSettings_malformed_json JSON.parse storageBadPrimary "\x7boops" rfl).1 rfl⟩,
    (loadSettings_malformed_json JSON.parse storageBadChaining primaryText rfl).2
      _ "\x7boops" (by decide) rfl rfl rfl⟩

/-- Claim C6: when the request of a backend pull is rejected or answered with a
non-success status, each of `loadShowWelcomeTilesFromBackend`, `loadShowTopBarFromBackend`
and `loadUiThemeFromBackend` completes normally with the settings record and local storage
exactly as before the call. -/
theorem backend_pull_failure_keeps_state (parse : String → Option JSValue)
    (stringify : JSValue → String) (fetched : Option Response) (st : Store)
    (hfail : fetched = none ∨ ∃ r, fetched = some r ∧ r.ok = false) :
    loadShowWelcomeTilesFromBackend parse stringify fetched st = .ok st ∧
    loadShowTopBarFromBackend parse stringify fetched st = .ok st ∧
    loadUiThemeFromBackend parse stringify fetched st = .ok st := by
  rcases hfail with h | ⟨r, h, hr⟩
  · subst h
    exact ⟨rfl, rfl, rfl⟩
  · subst h
    simp [loadShowWelcomeTilesFromBackend, loadShowTopBarFromBackend, loadUiThemeFromBackend,
      hr]

/-- Claim C6 applies to a pull that is answered with a non-success status. -/
theorem backend_pull_failure_keeps_state_witness :
    responseError.ok = false ∧
    (loadShowWelcomeTilesFromBackend JSON.parse JSON.stringify (some responseError)
        storeDefaults = .ok storeDefaults ∧
      loadShowTopBarFromBackend JSON.parse JSON.stringify (some responseError)
        storeDefaults = .ok storeDefaults ∧
      loadUiThemeFromBackend JSON.parse JSON.stringify (some responseError)
        storeDefaults = .ok storeDefaults) :=
  ⟨rfl, backend_pull_failure_keeps_state JSON.parse JSON.stringify (some responseError)
    storeDefaults (Or.inr ⟨responseError, rfl, rfl⟩)⟩

/-- Claim C7: when the fetch of the version endpoint rejects or answers with a non-success
status, `checkVersionAndClearCache` of main.js leaves local storage unchanged, triggers no
reload, and its result is not `false`, so the application is mounted. -/
theorem checkVersionAndClearCache_check_failed (parse : String → Option JSValue)
    (fetched : Option Response) (caches : Option CacheStorage) (ls : Storage)
    (hfail : fetched = none ∨ ∃ r, fetched = some r ∧ r.ok = false) :
    (checkVersionAndClearCache parse fetched caches ls).localStorage = ls ∧
    (checkVersionAndClearCache parse fetched caches ls).reloaded = false ∧
    (checkVersionAndClearCache parse fetched caches ls).returned ≠ some false ∧
    mounts (checkVersionAndClearCache parse fetched caches ls) = true := by
  rcases hfail with h | ⟨r, h, hr⟩
  · subst h
    simp [checkVersionAndClearCache, mounts]
  · subst h
    simp [checkVersionAndClearCache, mounts, hr]

/-- Claim C7 applies to a version endpoint that answers with a non-success status while
storage holds an older marker. -/
theorem checkVersionAndClearCache_check_failed_witness :
    responseError.ok = false ∧
    ((checkVersionAndClearCache JSON.parse (some responseError) none
        storageOldVersion).localStorage = storageOldVersion ∧
      (checkVersionAndClearCache JSON.parse (some responseError) none
        storageOldVersion).reloaded = false ∧
      (checkVersionAndClearCache JSON.parse (some responseError) none
        storageOldVersion).returned ≠ some false ∧
      mounts (checkVersionAndClearCache JSON.parse (some responseError) none
        storageOldVersion) = true) :=
  ⟨rfl, checkVersionAndClearCache_check_failed JSON.parse (some responseError) none
    storageOldVersion (Or.inr ⟨responseError, rfl, rfl⟩)⟩

set_option maxRecDepth 100000 in
/-- Claim C9 fails on the code: when the backend answers with `visionModel: null`, the
in-memory record keeps its preferred vision model, the `chainingSettings` key is written
with `visionModel: null`, and a subsequent `loadSettings` (after the watcher has persisted
the record) yields `null` for `preferredVisionModel`, not the in-memory value. -/
theorem syncVisionSettingsWithBackend_null_model_out_of_sync :
    syncVisionSettingsWithBackend JSON.stringify (some backendNullModel) storeDefaults
      = .ok { settings := Obj.set defaultSettings "visionChainEnabled" (.bool false),
              localStorage :=
                setItem storeDefaults.localStorage "chainingSettings"
                  "\x7b\"enabled\":false,\"visionModel\":null,\"showIntermediateOutput\":false\x7d" } ∧
    Obj.get (Obj.set defaultSettings "visionChainEnabled" (.bool false)) "preferredVisionModel"
      = some (.str "llava:7b") ∧
    Obj.get
      (loadSettings JSON.parse
        (watchSettings JSON.stringify
          { settings := Obj.set defaultSettings "visionChainEnabled" (.bool false),
            localStorage :=
              setItem storeDefaults.localStorage "chainingSettings"
                "\x7b\"enabled\":false,\"visionModel\":null,\"showIntermediateOutput\":false\x7d" }).localStorage)
      "preferredVisionModel" = some .null := by
  refine ⟨rfl, rfl, rfl⟩

/-- Claim C11: when the stored version marker equals the current marker, neither gate
removes a key.  The gate of settingsStore.js returns false with local storage unchanged;
the check of main.js, once the backend has reported the stored version, returns true
without reload and leaves local storage unchanged, so every entry keeps its prior
value. -/
theorem version_gates_same_version_keep_storage (appVersion : String)
    (parse : String → Option JSValue) (response : Response) (caches : Option CacheStorage)
    (ls : Storage) (versionInfo : JSValue) (version : String) :
    (getItem ls VERSION_KEY = some (currentVersion appVersion) →
      checkVersionAndClearCacheIfNeeded appVersion ls = (ls, false)) ∧
    (response.ok = true → parse response.body = some versionInfo →
      getProp versionInfo "version" = .ok (.str version) →
      getItem ls VERSION_STORAGE_KEY = some version →
      (checkVersionAndClearCache parse (some response) caches ls).localStorage = ls ∧
      (∀ k, getItem (checkVersionAndClearCache parse (some response) caches ls).localStorage k
        = getItem ls k) ∧
      (checkVersionAndClearCache parse (some response) caches ls).returned = some true ∧
      (checkVersionAndClearCache parse (some response) caches ls).reloaded = false) := by
  constructor
  · intro h
    simp only [checkVersionAndClearCacheIfNeeded, h, ne_eq, not_true_eq_false, if_false]
  · intro hok hbody hver hstored
    have hself : setItem ls VERSION_STORAGE_KEY version = ls :=
      setItem_eq_self ls VERSION_STORAGE_KEY version hstored
    have hres : checkVersionAndClearCache parse (some response) caches ls
        = { localStorage := ls, returned := some true, reloaded := false } := by
      simp [checkVersionAndClearCache, hok, hbody, hver, hstored, strictNeStr, toJSString,
        hself]
    rw [hres]
    exact ⟨rfl, fun _ => rfl, rfl, rfl⟩

/-- Claim C11 applies to a storage written by version 2.2.0 when the build and the backend
both report 2.2.0. -/
theorem version_gates_same_version_keep_storage_witness :
    (getItem storageCurrentVersion VERSION_KEY = some (currentVersion "2.2.0") ∧
      JSON.parse responseVersion.body = some (.obj [("version", .str "2.2.0")])) ∧
    checkVersionAndClearCacheIfNeeded "2.2.0" storageCurrentVersion
      = (storageCurrentVersion, false) ∧
    ((checkVersionAndClearCache JSON.parse (some responseVersion) none
        storageCurrentVersion).localStorage = storageCurrentVersion ∧
      (∀ k, getItem (checkVersionAndClearCache JSON.parse (some responseVersion) none
          storageCurrentVersion).localStorage k = getItem storageCurrentVersion k) ∧
      (checkVersionAndClearCache JSON.parse (some responseVersion) none
        storageCurrentVersion).returned = some true ∧
      (checkVersionAndClearCache JSON.parse (some responseVersion) none
        storageCurrentVersion).reloaded = false) :=
  ⟨⟨by decide, rfl⟩,
    (version_gates_same_version_keep_storage "2.2.0" JSON.parse responseVersion none
      storageCurrentVersion (.obj [("version", .str "2.2.0")]) "2.2.0").1 (by decide),
    (version_gates_same_version_keep_storage "2.2.0" JSON.parse responseVersion none
      storageCurrentVersion (.obj [("version", .str "2.2.0")]) "2.2.0").2 rfl rfl rfl
      (by decide)⟩

end FleetNavigator
